import Mathlib

/-!
# mxm-dataio: persistence and caching engine — verification development

Shallow embedding of the mxm-dataio core (request fingerprinting, the
content-addressed payload store, the transactional metadata store, the
store-instance registry, and the cache-policy engine) with proofs of the
spec's testable properties.

The engine modules themselves (`models.py`, `store.py`, `api.py`,
`cache.py`, `registry.py`) are not part of the provided sources — only
their tests and the adapter protocol declarations are — so the
definitions below are modelled from the specification (each such
definition says so in its doc comment) and are held to the concrete
behavior pinned by the test-suite (sentinel values, checksum algorithm,
TTL arithmetic, idempotence and rollback semantics).
-/

set_option maxRecDepth 100000

namespace MxmDataio

/-! ## Bytes and SHA-256

The spec fixes the payload checksum to the lowercase hexadecimal SHA-256
digest of the payload bytes (`Response.from_bytes` in the tests compares
against `hashlib.sha256(data).hexdigest()`).  We implement SHA-256
(FIPS 180-4) over byte lists so checksums in the model are the real
thing.  Bytes are `Nat`s; every arithmetic step reduces modulo 2^32.
-/

/-- A byte string: list of byte values (each < 256 for meaningful input). -/
abbrev Bytes := List Nat

/-- Truncate to a 32-bit word. -/
def w32 (x : Nat) : Nat := x % 4294967296

/-- 32-bit right rotation. -/
def rotr (n x : Nat) : Nat := w32 ((x >>> n) ||| (x <<< (32 - n)))

/-- 32-bit logical right shift. -/
def shr (n x : Nat) : Nat := x >>> n

/-- Bitwise complement within 32 bits. -/
def wnot (x : Nat) : Nat := 4294967295 - w32 x

/-- SHA-256 round constants (FIPS 180-4 §4.2.2), in decimal. -/
def sha256K : List Nat :=
  [1116352408, 1899447441, 3049323471, 3921009573, 961987163, 1508970993,
   2453635748, 2870763221, 3624381080, 310598401, 607225278, 1426881987,
   1925078388, 2162078206, 2614888103, 3248222580, 3835390401, 4022224774,
   264347078, 604807628, 770255983, 1249150122, 1555081692, 1996064986,
   2554220882, 2821834349, 2952996808, 3210313671, 3336571891, 3584528711,
   113926993, 338241895, 666307205, 773529912, 1294757372, 1396182291,
   1695183700, 1986661051, 2177026350, 2456956037, 2730485921, 2820302411,
   3259730800, 3345764771, 3516065817, 3600352804, 4094571909, 275423344,
   430227734, 506948616, 659060556, 883997877, 958139571, 1322822218,
   1537002063, 1747873779, 1955562222, 2024104815, 2227730452, 2361852424,
   2428436474, 2756734187, 3204031479, 3329325298]

/-- SHA-256 initial hash value (FIPS 180-4 §5.3.3), in decimal. -/
def sha256H0 : List Nat :=
  [1779033703, 3144134277, 1013904242, 2773480762, 1359893119, 2600822924,
   528734635, 1541459225]

/-- Split a list into consecutive chunks of `n` elements, with structural
fuel so the kernel can evaluate it (the fuel, one unit per chunk, is
amply covered by the list length since chunks are nonempty). -/
def chunksOfAux : Nat → Nat → List Nat → List (List Nat)
  | _, _, [] => []
  | 0, _, _ => []
  | fuel + 1, n, x :: xs =>
    (x :: xs).take n :: chunksOfAux fuel n ((x :: xs).drop n)

/-- Split a list into consecutive chunks of `n` elements (`n > 0`). -/
def chunksOf (n : Nat) (l : List Nat) : List (List Nat) :=
  if n = 0 then [] else chunksOfAux l.length n l

/-- SHA-256 message padding: append 0x80, zero bytes to 56 mod 64, then
the bit length as 8 big-endian bytes. -/
def sha256Pad (msg : Bytes) : Bytes :=
  let len := msg.length
  let bitLen := 8 * len
  let zeros := (120 - ((len + 1) % 64)) % 64
  msg ++ [0x80] ++ List.replicate zeros 0 ++
    (List.range 8).map (fun i => (bitLen >>> (8 * (7 - i))) % 256)

/-- Pack four big-endian bytes into one 32-bit word. -/
def packWord : List Nat → Nat
  | [b0, b1, b2, b3] => w32 (b0 <<< 24 + b1 <<< 16 + b2 <<< 8 + b3)
  | _ => 0

/-- Extend 16 message words into the 64-word SHA-256 schedule. -/
def sha256Schedule (ws : List Nat) : List Nat :=
  (List.range 48).foldl
    (fun w _ =>
      let n := w.length
      let s0 :=
        let x := w.getD (n - 15) 0
        w32 ((rotr 7 x) ^^^ (rotr 18 x) ^^^ (shr 3 x))
      let s1 :=
        let x := w.getD (n - 2) 0
        w32 ((rotr 17 x) ^^^ (rotr 19 x) ^^^ (shr 10 x))
      w ++ [w32 (w.getD (n - 16) 0 + s0 + w.getD (n - 7) 0 + s1)])
    ws

/-- The eight working registers of the compression function. -/
structure Sha256State where
  a : Nat
  b : Nat
  c : Nat
  d : Nat
  e : Nat
  f : Nat
  g : Nat
  h : Nat
deriving Repr, DecidableEq

/-- One SHA-256 compression round. -/
def sha256Round (st : Sha256State) (kw : Nat × Nat) : Sha256State :=
  let S1 := w32 ((rotr 6 st.e) ^^^ (rotr 11 st.e) ^^^ (rotr 25 st.e))
  let ch := w32 ((st.e &&& st.f) ^^^ ((wnot st.e) &&& st.g))
  let t1 := w32 (st.h + S1 + ch + kw.1 + kw.2)
  let S0 := w32 ((rotr 2 st.a) ^^^ (rotr 13 st.a) ^^^ (rotr 22 st.a))
  let mj := w32 ((st.a &&& st.b) ^^^ (st.a &&& st.c) ^^^ (st.b &&& st.c))
  let t2 := w32 (S0 + mj)
  { a := w32 (t1 + t2), b := st.a, c := st.b, d := st.c,
    e := w32 (st.d + t1), f := st.e, g := st.f, h := st.g }

/-- Compress one 64-byte block into the running 8-word hash. -/
def sha256Block (hs : List Nat) (block : Bytes) : List Nat :=
  let ws := sha256Schedule ((chunksOf 4 block).map packWord)
  let init : Sha256State :=
    { a := hs.getD 0 0, b := hs.getD 1 0, c := hs.getD 2 0, d := hs.getD 3 0,
      e := hs.getD 4 0, f := hs.getD 5 0, g := hs.getD 6 0, h := hs.getD 7 0 }
  let fin := (sha256K.zip ws).foldl (fun st p => sha256Round st (p.2, p.1)) init
  [w32 (hs.getD 0 0 + fin.a), w32 (hs.getD 1 0 + fin.b),
   w32 (hs.getD 2 0 + fin.c), w32 (hs.getD 3 0 + fin.d),
   w32 (hs.getD 4 0 + fin.e), w32 (hs.getD 5 0 + fin.f),
   w32 (hs.getD 6 0 + fin.g), w32 (hs.getD 7 0 + fin.h)]

/-- SHA-256 digest of a byte string, as eight 32-bit words. -/
def sha256Words (msg : Bytes) : List Nat :=
  (chunksOf 64 (sha256Pad msg)).foldl sha256Block sha256H0

/-- Lowercase hexadecimal digit. -/
def hexChar (n : Nat) : Char :=
  match n with
  | 0 => '0' | 1 => '1' | 2 => '2' | 3 => '3' | 4 => '4'
  | 5 => '5' | 6 => '6' | 7 => '7' | 8 => '8' | 9 => '9'
  | 10 => 'a' | 11 => 'b' | 12 => 'c' | 13 => 'd' | 14 => 'e'
  | _ => 'f'

/-- A 32-bit word as eight lowercase hex digits. -/
def wordHex (w : Nat) : List Char :=
  (List.range 8).map (fun i => hexChar ((w >>> (4 * (7 - i))) % 16))

/-- Lowercase hexadecimal SHA-256 digest of a byte string: the payload
checksum function of the system (`hashlib.sha256(data).hexdigest()`). -/
def sha256hex (msg : Bytes) : String :=
  String.mk ((sha256Words msg).foldr (fun w acc => wordHex w ++ acc) [])

/-- ASCII bytes of a string literal (test vectors are ASCII). -/
def strBytes (s : String) : Bytes := s.data.map Char.toNat

/-! ## JSON-shaped values

`RequestParams`/`JSONLike` from `types.py`: scalars (str / int / bool /
null), sequences and string-keyed mappings, nested recursively.  Floats
are omitted from the model (no claim touches them).  A mapping is an
ordered list of key-value pairs, which is exactly what an
insertion-ordered Python dict is; canonicalization sorts the keys. -/

mutual
inductive Json where
  | null : Json
  | bool (b : Bool) : Json
  | int (n : Int) : Json
  | str (s : String) : Json
  | arr (xs : JsonList) : Json
  | obj (fs : JsonFields) : Json
inductive JsonList where
  | nil : JsonList
  | cons (j : Json) (tl : JsonList) : JsonList
inductive JsonFields where
  | nil : JsonFields
  | cons (k : String) (j : Json) (tl : JsonFields) : JsonFields
end

/-- Lexicographic order on character lists by code point, written out so
that the kernel can evaluate it on concrete keys. -/
def leChars : List Char → List Char → Bool
  | [], _ => true
  | _ :: _, [] => false
  | a :: as, b :: bs =>
    a.toNat < b.toNat || (a.toNat == b.toNat && leChars as bs)

/-- Key order used by canonicalization: lexicographic on the key string. -/
def keyLe (a b : String × Json) : Prop := leChars a.1.data b.1.data = true

instance : DecidableRel keyLe := fun a b =>
  inferInstanceAs (Decidable (leChars a.1.data b.1.data = true))

/-- Ordered-mapping fields from an association list. -/
def fieldsOfList : List (String × Json) → JsonFields
  | [] => .nil
  | (k, j) :: rest => .cons k j (fieldsOfList rest)

/-- Association list of an ordered mapping's fields. -/
def fieldsToList : JsonFields → List (String × Json)
  | .nil => []
  | .cons k j rest => (k, j) :: fieldsToList rest

/-- Modelled from the spec: canonicalization sorts mapping keys
lexicographically (`models.py` is not in the sources; §4.1). -/
def sortFields (fs : JsonFields) : JsonFields :=
  fieldsOfList (List.insertionSort keyLe (fieldsToList fs))

mutual
/-- Modelled from the spec: the canonical form of a JSON-shaped value —
mapping keys sorted at every nesting level, scalars kept type-tagged
(`models.py` is not in the sources; §4.1 "keys sorted lexicographically;
... nested mappings/sequences encoded recursively"). -/
def Json.canon : Json → Json
  | .null => .null
  | .bool b => .bool b
  | .int n => .int n
  | .str s => .str s
  | .arr xs => .arr xs.canonL
  | .obj fs => .obj (sortFields fs.canonF)
def JsonList.canonL : JsonList → JsonList
  | .nil => .nil
  | .cons j tl => .cons j.canon tl.canonL
def JsonFields.canonF : JsonFields → JsonFields
  | .nil => .nil
  | .cons k j tl => .cons k j.canon tl.canonF
end

/-- JSON string literal (escaping is irrelevant to the claims; keys and
values in the tests contain no quotes or backslashes). -/
def jstr (s : String) : String := "\"" ++ s ++ "\""

mutual
/-- Modelled from the spec: deterministic minified JSON serialization
(sorted-key ordering is achieved by serializing canonical values;
`store.py`/`models.py` are not in the sources; §4.2). -/
def Json.encode : Json → String
  | .null => "null"
  | .bool b => cond b "true" "false"
  | .int n => toString n
  | .str s => jstr s
  | .arr xs => "[" ++ xs.encodeL ++ "]"
  | .obj fs => "\x7b" ++ fs.encodeF ++ "\x7d"
def JsonList.encodeL : JsonList → String
  | .nil => ""
  | .cons j .nil => j.encode
  | .cons j (.cons j2 tl) => j.encode ++ "," ++ (JsonList.cons j2 tl).encodeL
def JsonFields.encodeF : JsonFields → String
  | .nil => ""
  | .cons k j .nil => jstr k ++ ":" ++ j.encode
  | .cons k j (.cons k2 j2 tl) =>
    jstr k ++ ":" ++ j.encode ++ "," ++ (JsonFields.cons k2 j2 tl).encodeF
end

/-- Canonical stable byte encoding of a JSON-shaped value. -/
def Json.encodeCanon (j : Json) : String := (Json.canon j).encode

/-! ## Fingerprinting (`models.py` Request.hash, §4.1)

The real hash is the SHA-256 digest of the canonical byte encoding of
`(kind, method, canonicalized params, canonicalized body, as_of_bucket,
cache_tag)`.  A digest of a canonical encoding identifies requests
exactly by that tuple (the spec treats the checksum as collision-free
identity), so the model represents the digest by its preimage: the
canonical tuple itself, with params and body already canonically
serialized.  Everything the spec asserts about hash equality and
inequality is stated on this representation. -/

/-- HTTP-ish request method (`models.py` RequestMethod). -/
inductive RequestMethod where
  | get : RequestMethod
  | post : RequestMethod
deriving DecidableEq, Repr

/-- Cache modes of the Cache Policy Engine (§4.4). -/
inductive CacheMode where
  | default : CacheMode
  | bypass : CacheMode
  | never : CacheMode
  | onlyIfCached : CacheMode
  | revalidate : CacheMode
deriving DecidableEq, Repr

/-- Modelled from the spec: the request fingerprint — a pure function of
kind, method, canonicalized params, canonicalized body, as_of_bucket and
cache_tag, excluding cache_mode and ttl (`models.py` is not in the
sources; §3 Request invariant, §4.1).  The SHA-256 digest is represented
by its canonical preimage tuple. -/
structure Fingerprint where
  kind : String
  method : RequestMethod
  paramsEnc : String
  bodyEnc : Option String
  bucket : Option String
  tag : Option String
deriving DecidableEq, Repr

/-- Session-scope settings a request is built under (`api.py`
DataIoSession constructor arguments). -/
structure SessionCfg where
  cacheMode : CacheMode
  ttl : Option Int
  asOfBucket : Option String
  cacheTag : Option String
deriving DecidableEq, Repr

/-- A logical request as built by `DataIoSession.request`: params are an
insertion-ordered association list, bucket and tag stamped from the
session. -/
structure Request where
  kind : String
  method : RequestMethod
  params : List (String × Json)
  body : Option Json
  asOfBucket : Option String
  cacheTag : Option String

/-- Modelled from the spec: `Request.hash` — fingerprint of the request's
semantic content only (`models.py` is not in the sources; §4.1). -/
def Request.hash (r : Request) : Fingerprint :=
  { kind := r.kind
    method := r.method
    paramsEnc := Json.encodeCanon (.obj (fieldsOfList r.params))
    bodyEnc := r.body.map Json.encodeCanon
    bucket := r.asOfBucket
    tag := r.cacheTag }

/-- Modelled from the spec: `DataIoSession.request` builds a Request
stamped with the session's bucket and tag (`api.py` is not in the
sources; §4.5).  The session's cache_mode and ttl do not enter the
request's semantic content. -/
def mkRequest (cfg : SessionCfg) (kind : String) (method : RequestMethod)
    (params : List (String × Json)) (body : Option Json) : Request :=
  { kind := kind
    method := method
    params := params
    body := body
    asOfBucket := cfg.asOfBucket
    cacheTag := cfg.cacheTag }

/-! ## Payload Store (`store.py` write_payload / read_payload, §4.2)

Content-addressed blob store: a mapping from checksum-derived file names
to byte contents, plus JSON sidecars.  File-system paths are modelled
structurally (directory, stem, extension) the way `pathlib.Path`
decomposes them, so `path.stem` is a projection rather than string
parsing. -/

/-- A file-system location, decomposed as `pathlib.Path` views it. -/
structure StorePath where
  dir : String
  stem : String
  ext : String
deriving DecidableEq, Repr

/-- The file name component (stem plus extension). -/
def StorePath.fileName (p : StorePath) : String := p.stem ++ p.ext

/-- The rendered path string. -/
def StorePath.render (p : StorePath) : String := p.dir ++ "/" ++ p.stem ++ p.ext

/-- On-disk state of the responses directory: payload files keyed by
their checksum file name, sidecar JSON texts keyed by checksum. -/
structure PayloadStore where
  responsesDir : String
  files : List (String × Bytes)
  sidecars : List (String × String)
deriving DecidableEq, Repr

/-- Location of the payload file for a checksum: file named by the
checksum (stem = checksum), inside the responses directory. -/
def payloadPath (dirName c : String) : StorePath := ⟨dirName, c, ".bin"⟩

/-- Location of the metadata sidecar for a checksum:
`<checksum>.meta.json` inside the responses directory. -/
def metaPath (dirName c : String) : StorePath := ⟨dirName, c ++ ".meta", ".json"⟩

/-- Payload bytes stored under checksum `c`, if any. -/
def PayloadStore.lookup (ps : PayloadStore) (c : String) : Option Bytes :=
  (ps.files.find? (fun p => p.1 == c)).map (fun p => p.2)

/-- Modelled from the spec: `write_payload` — computes the content
checksum; if a file with that checksum already exists, returns its
location without rewriting; otherwise stores the bytes and returns the
new location (`store.py` is not in the sources; §4.2). -/
def PayloadStore.write_payload (ps : PayloadStore) (data : Bytes) :
    StorePath × PayloadStore :=
  let c := sha256hex data
  match ps.files.find? (fun p => p.1 == c) with
  | some _ => (payloadPath ps.responsesDir c, ps)
  | none =>
    (payloadPath ps.responsesDir c, { ps with files := (c, data) :: ps.files })

/-- Failure modes of payload reads (§7: not-found, corruption). -/
inductive PayloadReadError where
  | notFound : PayloadReadError
  | checksumMismatch : PayloadReadError
deriving DecidableEq, Repr

/-- Modelled from the spec: `read_payload` — fails with a not-found
error if no file exists for the checksum; otherwise recomputes the
checksum of the bytes on disk and fails with a checksum-mismatch error
if it disagrees (`store.py` is not in the sources; §4.2). -/
def PayloadStore.read_payload (ps : PayloadStore) (c : String) :
    Except PayloadReadError Bytes :=
  match ps.files.find? (fun p => p.1 == c) with
  | none => .error .notFound
  | some p => if sha256hex p.2 == c then .ok p.2 else .error .checksumMismatch

/-- Modelled from the spec: `write_metadata` — writes a deterministic
JSON sidecar named by checksum; an existing sidecar is left untouched
(first write wins) (`store.py` is not in the sources; §4.2). -/
def PayloadStore.write_metadata (ps : PayloadStore) (c : String)
    (meta : JsonFields) : StorePath × PayloadStore :=
  match ps.sidecars.find? (fun p => p.1 == c) with
  | some _ => (metaPath ps.responsesDir c, ps)
  | none =>
    (metaPath ps.responsesDir c,
     { ps with sidecars := (c, Json.encodeCanon (.obj meta)) :: ps.sidecars })

/-- Modelled from the spec: `read_metadata` — fails with a not-found
error if no sidecar exists (`store.py` is not in the sources; §4.2). -/
def PayloadStore.read_metadata (ps : PayloadStore) (c : String) :
    Except PayloadReadError String :=
  match ps.sidecars.find? (fun p => p.1 == c) with
  | none => .error .notFound
  | some p => .ok p.2

/-! ## Response data model (`models.py`, §3) -/

/-- Outcome status of a Response. -/
inductive ResponseStatus where
  | ok : ResponseStatus
  | ack : ResponseStatus
  | error : ResponseStatus
deriving DecidableEq, Repr

/-- A Response row: outcome of fetching or sending for a Request.
Fields not exercised by any claim (content_type, headers, provenance
copies of the policy settings) are omitted. -/
structure Response where
  id : Nat
  requestId : String
  status : ResponseStatus
  checksum : Option String
  path : String
  sizeBytes : Nat
  fetchedAt : Int
deriving DecidableEq, Repr

/-- Modelled from the spec: `Response.from_bytes` — builds a Response
whose checksum is the SHA-256 hex digest of the data and whose size is
the byte count (`models.py` is not in the sources; §3).  The generated
unique id and the creation timestamp are supplied explicitly here since
the model has no ambient uuid/clock. -/
def Response.from_bytes (id : Nat) (requestId : String)
    (status : ResponseStatus) (data : Bytes) (path : String) (now : Int) :
    Response :=
  { id := id, requestId := requestId, status := status
    checksum := some (sha256hex data), path := path
    sizeBytes := data.length, fetchedAt := now }

/-! ## Metadata Store transactions (`store.py` connect(), §4.3)

The three tables, idempotent insert operations, and the scoped
transaction: writes are applied eagerly to a working database (so a
partial state exists mid-scope); normal completion commits the working
state, an error propagating out of the scope makes the original state
the visible one (full rollback). -/

/-- A sessions-table row. -/
structure SessionRow where
  id : String
  source : String
  mode : String
  asOf : Option String
  startedAt : String
  endedAt : Option String
deriving DecidableEq, Repr

/-- A requests-table row. -/
structure RequestRow where
  id : String
  sessionId : String
  kind : String
  hash : Fingerprint
deriving DecidableEq, Repr

/-- A responses-table row (fields not touched by the claims omitted). -/
structure ResponseRow where
  id : Nat
  requestId : String
  checksum : Option String
  path : String
deriving DecidableEq, Repr

/-- The relational state: three append-mostly tables. -/
structure Db where
  sessions : List SessionRow
  requests : List RequestRow
  responses : List ResponseRow
deriving DecidableEq, Repr

/-- Writes available inside a transaction scope. -/
inductive WriteOp where
  | insertSession (s : SessionRow)
  | insertRequest (r : RequestRow)
  | insertResponse (r : ResponseRow)
  | markSessionEnded (sid : String) (t : Option String)
deriving DecidableEq, Repr

/-- Modelled from the spec: the table writes — `insert_session`,
`insert_request`, `insert_response` are idempotent on primary key;
`mark_session_ended` sets `ended_at`, accepting an explicit null
(`store.py` is not in the sources; §4.3). -/
def applyOp (db : Db) (op : WriteOp) : Db :=
  match op with
  | .insertSession s =>
    if db.sessions.any (fun row => row.id == s.id) then db
    else { db with sessions := db.sessions ++ [s] }
  | .insertRequest r =>
    if db.requests.any (fun row => row.id == r.id) then db
    else { db with requests := db.requests ++ [r] }
  | .insertResponse r =>
    if db.responses.any (fun row => row.id == r.id) then db
    else { db with responses := db.responses ++ [r] }
  | .markSessionEnded sid t =>
    let upd := fun (row : SessionRow) =>
      if row.id == sid then { row with endedAt := t } else row
    { db with sessions := db.sessions.map upd }

/-- One step of caller code inside a `connect()` scope: either a table
write or an error raised by the caller. -/
inductive TxnStep where
  | write (op : WriteOp)
  | raiseErr (msg : String)
deriving DecidableEq, Repr

/-- Run the scope body over the working database: writes are applied
eagerly; a raised error aborts with the steps so far already applied to
the working copy. -/
def runSteps : Db → List TxnStep → Except String Db
  | db, [] => .ok db
  | db, .write op :: rest => runSteps (applyOp db op) rest
  | _, .raiseErr m :: _ => .error m

/-- Modelled from the spec: the `connect()` transaction scope — on
normal completion the working state is committed and becomes visible; on
any error propagating out of the scope the transaction rolls back fully,
so the visible state is the original one (`store.py` is not in the
sources; §4.3).  Returns the scope outcome and the visible database. -/
def connectScope (db : Db) (steps : List TxnStep) : Except String Db × Db :=
  match runSteps db steps with
  | .ok db2 => (.ok db2, db2)
  | .error e => (.error e, db)

/-- The write operations a scope body contains, in order. -/
def writesOf (steps : List TxnStep) : List WriteOp :=
  steps.filterMap (fun s => match s with
    | .write op => some op
    | .raiseErr _ => none)

/-- `SELECT * FROM sessions WHERE id = ?`. -/
def selectSessionsById (db : Db) (sid : String) : List SessionRow :=
  db.sessions.filter (fun r => r.id == sid)

/-! ## Cache Policy Engine and fetch orchestration (§4.4, §4.5)

State visible to `fetch`: the recorded response rows (most recent
first, carrying the owning request's hash and the response's bucket —
the flattened join the hash lookups perform), the payload store, the
adapter call counter and the id source.  The adapter is a function from
the current call count to payload bytes, which models a stateful
adapter such as the test DummyFetcher returning `payload-<n>`. -/

/-- A cached-response row as seen by the hash lookup (response joined
with its request's hash and its bucket). -/
structure CacheRow where
  resp : Response
  hash : Fingerprint
  bucket : Option String
deriving DecidableEq, Repr

/-- Orchestrator-visible system state. -/
structure SysState where
  rows : List CacheRow
  payload : PayloadStore
  calls : Nat
  nextId : Nat
deriving DecidableEq, Repr

/-- Modelled from the spec:
`get_cached_response_by_request_hash_and_bucket` — the most recent
response whose request hash and bucket match (`store.py` is not in the
sources; §4.3). -/
def lookupCached (st : SysState) (fp : Fingerprint) (bucket : Option String) :
    Option CacheRow :=
  st.rows.find? (fun r => r.hash == fp && r.bucket == bucket)

/-- Freshness check: a cached response is fresh when ttl is none or its
age (now − fetched_at) is at most ttl (§4.4 DEFAULT row). -/
def ttlOk (ttl : Option Int) (fetchedAt now : Int) : Bool :=
  match ttl with
  | none => true
  | some t => decide (now - fetchedAt ≤ t)

/-- The path sentinel of responses that are deliberately not persisted. -/
def ephemeralPath : String := "<ephemeral>"

/-- Cache-policy failures surfaced by fetch. -/
inductive FetchError where
  | cacheMiss : FetchError
deriving DecidableEq, Repr

/-- Modelled from the spec: the miss path of a fetch — invoke the
adapter, write the payload (dedup), build a Response pointing at the
stored payload, persist its row, bump the call counter (`api.py` is not
in the sources; §4.5 fetch). -/
def freshFetch (adapter : Nat → Bytes) (st : SysState) (reqId : String)
    (fp : Fingerprint) (bucket : Option String) (now : Int) :
    Response × SysState :=
  let data := adapter st.calls
  let pw := st.payload.write_payload data
  let resp : Response :=
    { id := st.nextId, requestId := reqId, status := .ok
      checksum := some (sha256hex data), path := pw.1.render
      sizeBytes := data.length, fetchedAt := now }
  (resp,
   { rows := ⟨resp, fp, bucket⟩ :: st.rows, payload := pw.2,
     calls := st.calls + 1, nextId := st.nextId + 1 })

/-- Modelled from the spec: the DEFAULT policy — look up a cached
response by hash and bucket; if found and fresh, return it; otherwise
fetch fresh and persist (`api.py` is not in the sources; §4.4). -/
def defaultFlow (adapter : Nat → Bytes) (ttl : Option Int) (st : SysState)
    (reqId : String) (fp : Fingerprint) (bucket : Option String) (now : Int) :
    Except FetchError Response × SysState :=
  match lookupCached st fp bucket with
  | some row =>
    if ttlOk ttl row.resp.fetchedAt now then (.ok row.resp, st)
    else
      let r := freshFetch adapter st reqId fp bucket now
      (.ok r.1, r.2)
  | none =>
    let r := freshFetch adapter st reqId fp bucket now
    (.ok r.1, r.2)

/-- Modelled from the spec: the cache-policy state machine applied by
`fetch` — DEFAULT and REVALIDATE run the default flow, BYPASS always
fetches fresh and persists, NEVER fetches fresh but persists nothing and
returns an ephemeral Response with null checksum, ONLY_IF_CACHED serves
any cached response ignoring TTL and otherwise fails with a cache-miss
error without touching the adapter (`api.py` is not in the sources;
§4.4). -/
def applyFetch (adapter : Nat → Bytes) (mode : CacheMode) (ttl : Option Int)
    (st : SysState) (reqId : String) (fp : Fingerprint)
    (bucket : Option String) (now : Int) :
    Except FetchError Response × SysState :=
  match mode with
  | .default => defaultFlow adapter ttl st reqId fp bucket now
  | .revalidate => defaultFlow adapter ttl st reqId fp bucket now
  | .bypass =>
    let r := freshFetch adapter st reqId fp bucket now
    (.ok r.1, r.2)
  | .never =>
    let data := adapter st.calls
    (.ok { id := st.nextId, requestId := reqId, status := .ok
           checksum := none, path := ephemeralPath
           sizeBytes := data.length, fetchedAt := now },
     { st with calls := st.calls + 1, nextId := st.nextId + 1 })
  | .onlyIfCached =>
    match lookupCached st fp bucket with
    | some row => (.ok row.resp, st)
    | none => (.error .cacheMiss, st)

/-! ## Store instance registry (`store.py` get_instance, §4.3)

One store instance per resolved database path, process-wide.  The
mutual-exclusion guard the spec mandates makes each
`get_instance` call atomic, so a concurrent execution is modelled as an
arbitrary serialized sequence of calls. -/

/-- The configuration view the store needs (§6). -/
structure StoreCfg where
  dbPath : String
  responsesDir : String
deriving DecidableEq, Repr

/-- The resolved physical storage location a config denotes. -/
def resolveKey (cfg : StoreCfg) : String := cfg.dbPath

/-- The process-wide instance registry: resolved path ↦ instance
(instances are identified by allocation number — `is`-identity in
Python), plus the next fresh instance id. -/
structure InstanceRegistry where
  entries : List (String × Nat)
  nextId : Nat
deriving DecidableEq, Repr

/-- Modelled from the spec: `Store.get_instance` — under the
construction lock, return the instance registered for the resolved
storage location, or construct and register a fresh one (`store.py` is
not in the sources; §4.3 singleton discipline). -/
def get_instance (reg : InstanceRegistry) (cfg : StoreCfg) :
    Nat × InstanceRegistry :=
  match reg.entries.find? (fun p => p.1 == resolveKey cfg) with
  | some p => (p.2, reg)
  | none =>
    (reg.nextId,
     { entries := (resolveKey cfg, reg.nextId) :: reg.entries,
       nextId := reg.nextId + 1 })

/-- Registry sanity: every registered instance id was allocated (below
the fresh counter) and no id is registered twice. -/
def RegistryWF (reg : InstanceRegistry) : Prop :=
  (∀ p ∈ reg.entries, p.2 < reg.nextId) ∧ (reg.entries.map Prod.snd).Nodup

/-- A serialized trace of `get_instance` calls (the construction lock
serializes concurrent callers): returns each call's instance and the
final registry. -/
def runAll : InstanceRegistry → List StoreCfg → List Nat × InstanceRegistry
  | reg, [] => ([], reg)
  | reg, c :: cs =>
    let r1 := get_instance reg c
    let rest := runAll r1.2 cs
    (r1.1 :: rest.1, rest.2)

/-! ## Helper lemmas -/

theorem leChars_total (as bs : List Char) :
    leChars as bs = true ∨ leChars bs as = true := by
  induction as generalizing bs with
  | nil => exact Or.inl rfl
  | cons a as ih =>
    cases bs with
    | nil => exact Or.inr rfl
    | cons b bs =>
      rcases Nat.lt_trichotomy a.toNat b.toNat with h | h | h
      · left; simp [leChars, h]
      · rcases ih bs with h2 | h2
        · left; simp [leChars, h, h2]
        · right; simp [leChars, h.symm, h2]
      · right; simp [leChars, h]

theorem leChars_trans {as bs cs : List Char} (h1 : leChars as bs = true)
    (h2 : leChars bs cs = true) : leChars as cs = true := by
  induction as generalizing bs cs with
  | nil => rfl
  | cons a as ih =>
    cases bs with
    | nil => simp [leChars] at h1
    | cons b bs =>
      cases cs with
      | nil => simp [leChars] at h2
      | cons c cs =>
        simp only [leChars, Bool.or_eq_true, Bool.and_eq_true, decide_eq_true_eq,
          beq_iff_eq] at h1 h2 ⊢
        rcases h1 with h1 | ⟨h1e, h1r⟩
        · rcases h2 with h2 | ⟨h2e, _⟩
          · exact Or.inl (h1.trans h2)
          · exact Or.inl (h2e ▸ h1)
        · rcases h2 with h2 | ⟨h2e, h2r⟩
          · exact Or.inl (h1e ▸ h2)
          · exact Or.inr ⟨h1e.trans h2e, ih h1r h2r⟩

theorem leChars_antisymm {as bs : List Char} (h1 : leChars as bs = true)
    (h2 : leChars bs as = true) : as = bs := by
  induction as generalizing bs with
  | nil => cases bs with
    | nil => rfl
    | cons b bs => simp [leChars] at h2
  | cons a as ih =>
    cases bs with
    | nil => simp [leChars] at h1
    | cons b bs =>
      simp only [leChars, Bool.or_eq_true, Bool.and_eq_true, decide_eq_true_eq,
        beq_iff_eq] at h1 h2
      rcases h1 with h1 | ⟨h1e, h1r⟩
      · rcases h2 with h2 | ⟨h2e, _⟩
        · omega
        · omega
      · rcases h2 with h2 | ⟨_, h2r⟩
        · omega
        · have hc : a = b := by
            have := congrArg Char.ofNat h1e
            rwa [Char.ofNat_toNat, Char.ofNat_toNat] at this
          exact hc ▸ congrArg (List.cons a) (ih h1r h2r)

theorem fieldsToList_ofList (l : List (String × Json)) :
    fieldsToList (fieldsOfList l) = l := by
  induction l with
  | nil => rfl
  | cons p rest ih => cases p; simp [fieldsOfList, fieldsToList, ih]

/-- Two association lists that are permutations of each other with
duplicate-free keys sort to the same field list: sorting by key is a
canonical form independent of insertion order. -/
theorem insertionSort_keyLe_eq_of_perm (l1 l2 : List (String × Json))
    (hp : l1.Perm l2) (hn : (l1.map Prod.fst).Nodup) :
    List.insertionSort keyLe l1 = List.insertionSort keyLe l2 := by
  haveI t : IsTotal (String × Json) keyLe :=
    ⟨fun a b => leChars_total a.1.data b.1.data⟩
  haveI tr : IsTrans (String × Json) keyLe :=
    ⟨fun _ _ _ h1 h2 => leChars_trans h1 h2⟩
  have hperm : (List.insertionSort keyLe l1).Perm (List.insertionSort keyLe l2) :=
    (List.perm_insertionSort keyLe l1).trans
      (hp.trans (List.perm_insertionSort keyLe l2).symm)
  have hs1 := List.sorted_insertionSort keyLe l1
  have hs2 := List.sorted_insertionSort keyLe l2
  have hn1 : ((List.insertionSort keyLe l1).map Prod.fst).Nodup :=
    (((List.perm_insertionSort keyLe l1).map Prod.fst).nodup_iff).mpr hn
  have hn2 : ((List.insertionSort keyLe l2).map Prod.fst).Nodup := by
    have : (l2.map Prod.fst).Nodup := ((hp.map Prod.fst).nodup_iff).mp hn
    exact (((List.perm_insertionSort keyLe l2).map Prod.fst).nodup_iff).mpr this
  have strict : ∀ (l : List (String × Json)), l.Sorted keyLe →
      (l.map Prod.fst).Nodup → l.Pairwise (fun a b => keyLe a b ∧ a.1 ≠ b.1) := by
    intro l hs hnd
    have hnd' : l.Pairwise (fun a b => a.1 ≠ b.1) := by
      have := (List.pairwise_map (R := fun a b : String => a ≠ b)).mp hnd
      exact this
    exact hs.and hnd'
  haveI anti : IsAntisymm (String × Json) (fun a b => keyLe a b ∧ a.1 ≠ b.1) :=
    ⟨fun a b h1 h2 => by
      have hk : a.1 = b.1 := by
        have hd := leChars_antisymm h1.1 h2.1
        cases ha : a.1 with
        | mk da =>
          cases hb : b.1 with
          | mk db =>
            have : da = db := by
              have := hd
              rw [ha, hb] at this
              exact this
            exact congrArg String.mk this
      exact absurd hk h1.2⟩
  exact List.eq_of_perm_of_sorted hperm (strict _ hs1 hn1) (strict _ hs2 hn2)

theorem encodeCanon_obj_eq_of_perm (p1 p2 : List (String × Json))
    (hp : p1.Perm p2) (hn : (p1.map Prod.fst).Nodup) :
    Json.encodeCanon (.obj (fieldsOfList p1)) =
      Json.encodeCanon (.obj (fieldsOfList p2)) := by
  have canonF_ofList : ∀ l : List (String × Json),
      (fieldsOfList l).canonF = fieldsOfList (l.map (fun p => (p.1, p.2.canon))) := by
    intro l
    induction l with
    | nil => rfl
    | cons p rest ih => cases p; simp [fieldsOfList, JsonFields.canonF, ih]
  have key : sortFields (fieldsOfList p1).canonF =
      sortFields (fieldsOfList p2).canonF := by
    rw [canonF_ofList, canonF_ofList]
    unfold sortFields
    rw [fieldsToList_ofList, fieldsToList_ofList]
    congr 1
    apply insertionSort_keyLe_eq_of_perm _ _ (hp.map _)
    have : (p1.map (fun p => (p.1, p.2.canon))).map Prod.fst = p1.map Prod.fst := by
      simp
    rw [this]
    exact hn
  simp only [Json.encodeCanon, Json.canon, key]

/-! ## Claims -/

/-- C1: The request fingerprint is a pure deterministic function of
(kind, method, canonicalized params, canonicalized body, as_of_bucket,
cache_tag): two requests with the same logical content hash equally
regardless of params key insertion order and regardless of the
sessions' cache_mode or ttl settings, while two requests identical
except in as_of_bucket, or identical except in cache_tag, hash
differently. -/
theorem c1_request_hash_identity (s1 s2 : SessionCfg) (kind : String)
    (method : RequestMethod) (p1 p2 : List (String × Json))
    (body : Option Json) :
    (s1.asOfBucket = s2.asOfBucket → s1.cacheTag = s2.cacheTag →
      p1.Perm p2 → (p1.map Prod.fst).Nodup →
      (mkRequest s1 kind method p1 body).hash =
        (mkRequest s2 kind method p2 body).hash)
    ∧ (s1.asOfBucket ≠ s2.asOfBucket →
      (mkRequest s1 kind method p1 body).hash ≠
        (mkRequest s2 kind method p1 body).hash)
    ∧ (s1.cacheTag ≠ s2.cacheTag →
      (mkRequest s1 kind method p1 body).hash ≠
        (mkRequest s2 kind method p1 body).hash) := by
  refine ⟨?_, ?_, ?_⟩
  · intro hb ht hp hn
    simp only [Request.hash, mkRequest]
    rw [encodeCanon_obj_eq_of_perm p1 p2 hp hn, hb, ht]
  · intro hb heq
    simp only [Request.hash, mkRequest, Fingerprint.mk.injEq] at heq
    exact hb heq.2.2.2.2.1
  · intro ht heq
    simp only [Request.hash, mkRequest, Fingerprint.mk.injEq] at heq
    exact ht heq.2.2.2.2.2

/-- Witness for C1, mirroring `test_hash_ignores_ttl_and_mode`,
`test_request_hash_includes_bucket` and `test_hash_partitions_on_cache_tag`:
swapped param insertion order with differing cache mode and ttl gives an
equal hash; changing only the bucket, or only the tag, changes it. -/
theorem c1_request_hash_identity_witness :
    ((mkRequest ⟨.default, some 1, some "K", none⟩ "http" .get
        [("symbol", .str "AAPL"), ("limit", .int 10)] none).hash =
      (mkRequest ⟨.onlyIfCached, some 999, some "K", none⟩ "http" .get
        [("limit", .int 10), ("symbol", .str "AAPL")] none).hash)
    ∧ ((mkRequest ⟨.default, none, some "2025-10-27", none⟩ "http" .get
        [("u", .str "A")] none).hash ≠
      (mkRequest ⟨.default, none, some "2025-10-28", none⟩ "http" .get
        [("u", .str "A")] none).hash)
    ∧ ((mkRequest ⟨.default, none, some "T", some "en"⟩ "http" .get
        [("u", .str "A")] none).hash ≠
      (mkRequest ⟨.default, none, some "T", some "de"⟩ "http" .get
        [("u", .str "A")] none).hash) := by
  refine ⟨?_, ?_, ?_⟩
  · exact (c1_request_hash_identity ⟨.default, some 1, some "K", none⟩
      ⟨.onlyIfCached, some 999, some "K", none⟩ "http" .get
      [("symbol", .str "AAPL"), ("limit", .int 10)]
      [("limit", .int 10), ("symbol", .str "AAPL")] none).1 rfl rfl
      (List.Perm.swap ("limit", Json.int 10) ("symbol", Json.str "AAPL") [])
      (by decide)
  · exact (c1_request_hash_identity ⟨.default, none, some "2025-10-27", none⟩
      ⟨.default, none, some "2025-10-28", none⟩ "http" .get
      [("u", .str "A")] [("u", .str "A")] none).2.1 (by decide)
  · exact (c1_request_hash_identity ⟨.default, none, some "T", some "en"⟩
      ⟨.default, none, some "T", some "de"⟩ "http" .get
      [("u", .str "A")] [("u", .str "A")] none).2.2 (by decide)

theorem runSteps_ok_foldl (steps : List TxnStep) (db db2 : Db)
    (h : runSteps db steps = .ok db2) :
    db2 = (writesOf steps).foldl applyOp db := by
  induction steps generalizing db with
  | nil =>
    simp only [runSteps, Except.ok.injEq] at h
    simp [writesOf, h]
  | cons s rest ih =>
    cases s with
    | write op =>
      simp only [runSteps] at h
      simpa [writesOf, List.filterMap_cons] using ih (applyOp db op) h
    | raiseErr m => simp [runSteps] at h

/-- C2: For every sequence of writes executed inside one Metadata Store
connect() transactional scope, if any error propagates out of the scope
then none of those writes is visible to any subsequent read (full
rollback: the visible database is the original one, so every read is
unchanged), and if the scope completes normally all of them are
committed (the visible database is the one with every write applied in
order). -/
theorem c2_transaction_atomicity (db : Db) (steps : List TxnStep) :
    (∀ e, runSteps db steps = .error e →
      (connectScope db steps).1 = .error e ∧ (connectScope db steps).2 = db ∧
        ∀ sid, selectSessionsById (connectScope db steps).2 sid =
          selectSessionsById db sid)
    ∧ (∀ db2, runSteps db steps = .ok db2 →
      connectScope db steps = (.ok db2, db2) ∧
        (connectScope db steps).2 = (writesOf steps).foldl applyOp db) := by
  constructor
  · intro e h
    refine ⟨?_, ?_, ?_⟩ <;> simp [connectScope, h]
  · intro db2 h
    have hc : connectScope db steps = (.ok db2, db2) := by simp [connectScope, h]
    exact ⟨hc, by rw [hc]; exact runSteps_ok_foldl steps db db2 h⟩

/-- Witness for C2, mirroring `test_transaction_rollback`: a scope that
inserts a session row and then raises leaves the visible database
unchanged — selecting the inserted id afterwards finds nothing — and
the scope surfaces the error. -/
theorem c2_transaction_atomicity_witness :
    (runSteps ⟨[], [], []⟩
        [.write (.insertSession ⟨"bad", "x", "sync", none, "now", none⟩),
         .raiseErr "force rollback"] = .error "force rollback")
    ∧ (connectScope ⟨[], [], []⟩
        [.write (.insertSession ⟨"bad", "x", "sync", none, "now", none⟩),
         .raiseErr "force rollback"]).2 = ⟨[], [], []⟩
    ∧ selectSessionsById (connectScope ⟨[], [], []⟩
        [.write (.insertSession ⟨"bad", "x", "sync", none, "now", none⟩),
         .raiseErr "force rollback"]).2 "bad" = [] := by
  have happ := (c2_transaction_atomicity ⟨[], [], []⟩
      [.write (.insertSession ⟨"bad", "x", "sync", none, "now", none⟩),
       .raiseErr "force rollback"]).1 "force rollback" rfl
  exact ⟨rfl, happ.2.1, (happ.2.2 "bad").trans rfl⟩

theorem freshFetch_calls (adapter : Nat → Bytes) (st : SysState) (rid : String)
    (fp : Fingerprint) (bucket : Option String) (now : Int) :
    (freshFetch adapter st rid fp bucket now).2.calls = st.calls + 1 := rfl

theorem freshFetch_fetchedAt (adapter : Nat → Bytes) (st : SysState)
    (rid : String) (fp : Fingerprint) (bucket : Option String) (now : Int) :
    (freshFetch adapter st rid fp bucket now).1.fetchedAt = now := rfl

/-- The row persisted by a fresh fetch is the first hit of the
subsequent hash-and-bucket lookup. -/
theorem lookupCached_freshFetch (adapter : Nat → Bytes) (st : SysState)
    (rid : String) (fp : Fingerprint) (bucket : Option String) (now : Int) :
    lookupCached (freshFetch adapter st rid fp bucket now).2 fp bucket =
      some ⟨(freshFetch adapter st rid fp bucket now).1, fp, bucket⟩ := by
  simp [freshFetch, lookupCached, List.find?_cons_of_pos]

/-- C3: Under cache mode DEFAULT, for every request: the first fetch on
a state with no cached response for its hash and bucket invokes the
adapter exactly once and persists the response; a second fetch with
identical hash and bucket whose cached response age is within
ttl_seconds (or whose ttl is none) performs no adapter call and returns
the very response persisted first (in particular the same path); once
the TTL has elapsed, a further fetch invokes the adapter again and
persists a fresh response. -/
theorem c3_default_mode_ttl (adapter : Nat → Bytes) (st0 : SysState)
    (rid1 rid2 rid3 rid4 : String) (fp : Fingerprint) (bucket : Option String)
    (ttl t0 t1 t1' t2 : Int)
    (hmiss : lookupCached st0 fp bucket = none)
    (hfresh : t1 - t0 ≤ ttl) (hstale : t2 - t0 > ttl) :
    applyFetch adapter .default (some ttl) st0 rid1 fp bucket t0 =
      (.ok (freshFetch adapter st0 rid1 fp bucket t0).1,
        (freshFetch adapter st0 rid1 fp bucket t0).2)
    ∧ (freshFetch adapter st0 rid1 fp bucket t0).2.calls = st0.calls + 1
    ∧ lookupCached (freshFetch adapter st0 rid1 fp bucket t0).2 fp bucket =
        some ⟨(freshFetch adapter st0 rid1 fp bucket t0).1, fp, bucket⟩
    ∧ applyFetch adapter .default (some ttl)
        (freshFetch adapter st0 rid1 fp bucket t0).2 rid2 fp bucket t1 =
        (.ok (freshFetch adapter st0 rid1 fp bucket t0).1,
          (freshFetch adapter st0 rid1 fp bucket t0).2)
    ∧ applyFetch adapter .default none
        (freshFetch adapter st0 rid1 fp bucket t0).2 rid4 fp bucket t1' =
        (.ok (freshFetch adapter st0 rid1 fp bucket t0).1,
          (freshFetch adapter st0 rid1 fp bucket t0).2)
    ∧ applyFetch adapter .default (some ttl)
        (freshFetch adapter st0 rid1 fp bucket t0).2 rid3 fp bucket t2 =
        (.ok (freshFetch adapter (freshFetch adapter st0 rid1 fp bucket t0).2
            rid3 fp bucket t2).1,
          (freshFetch adapter (freshFetch adapter st0 rid1 fp bucket t0).2
            rid3 fp bucket t2).2)
    ∧ (freshFetch adapter (freshFetch adapter st0 rid1 fp bucket t0).2
        rid3 fp bucket t2).2.calls = st0.calls + 2
    ∧ lookupCached (freshFetch adapter (freshFetch adapter st0 rid1 fp bucket t0).2
        rid3 fp bucket t2).2 fp bucket =
        some ⟨(freshFetch adapter (freshFetch adapter st0 rid1 fp bucket t0).2
          rid3 fp bucket t2).1, fp, bucket⟩ := by
  have hlk := lookupCached_freshFetch adapter st0 rid1 fp bucket t0
  refine ⟨?_, rfl, hlk, ?_, ?_, ?_, rfl, lookupCached_freshFetch adapter _ rid3 fp bucket t2⟩
  · simp [applyFetch, defaultFlow, hmiss]
  · have hok : ttlOk (some ttl)
        (freshFetch adapter st0 rid1 fp bucket t0).1.fetchedAt t1 = true := by
      rw [freshFetch_fetchedAt]
      simpa [ttlOk] using hfresh
    simp [applyFetch, defaultFlow, hlk, hok]
  · simp [applyFetch, defaultFlow, hlk, ttlOk]
  · have hko : ttlOk (some ttl)
        (freshFetch adapter st0 rid1 fp bucket t0).1.fetchedAt t2 = false := by
      rw [freshFetch_fetchedAt]
      simp only [ttlOk, decide_eq_false_iff_not]
      omega
    simp [applyFetch, defaultFlow, hlk, hko]

/-- Witness for C3, mirroring `test_default_mode_ttl`: empty store,
adapter returning `payload-<n>`, ttl one second, fetches at times 0
(miss), 1 (hit), 2 (expired → refetch). -/
theorem c3_default_mode_ttl_witness :
    lookupCached ⟨[], ⟨"responses", [], []⟩, 0, 0⟩
      ⟨"http", .get, "x", none, some "D", none⟩ (some "D") = none
    ∧ (1 : Int) - 0 ≤ 1 ∧ (2 : Int) - 0 > 1
    ∧ ((freshFetch (fun n => strBytes ("payload-" ++ toString (n + 1)))
        ⟨[], ⟨"responses", [], []⟩, 0, 0⟩ "r1"
        ⟨"http", .get, "x", none, some "D", none⟩ (some "D") 0).2.calls = 0 + 1
      ∧ applyFetch (fun n => strBytes ("payload-" ++ toString (n + 1))) .default
          (some 1)
          (freshFetch (fun n => strBytes ("payload-" ++ toString (n + 1)))
            ⟨[], ⟨"responses", [], []⟩, 0, 0⟩ "r1"
            ⟨"http", .get, "x", none, some "D", none⟩ (some "D") 0).2 "r2"
          ⟨"http", .get, "x", none, some "D", none⟩ (some "D") 1 =
        (.ok (freshFetch (fun n => strBytes ("payload-" ++ toString (n + 1)))
            ⟨[], ⟨"responses", [], []⟩, 0, 0⟩ "r1"
            ⟨"http", .get, "x", none, some "D", none⟩ (some "D") 0).1,
          (freshFetch (fun n => strBytes ("payload-" ++ toString (n + 1)))
            ⟨[], ⟨"responses", [], []⟩, 0, 0⟩ "r1"
            ⟨"http", .get, "x", none, some "D", none⟩ (some "D") 0).2)
      ∧ (freshFetch (fun n => strBytes ("payload-" ++ toString (n + 1)))
          (freshFetch (fun n => strBytes ("payload-" ++ toString (n + 1)))
            ⟨[], ⟨"responses", [], []⟩, 0, 0⟩ "r1"
            ⟨"http", .get, "x", none, some "D", none⟩ (some "D") 0).2 "r3"
          ⟨"http", .get, "x", none, some "D", none⟩ (some "D") 2).2.calls = 0 + 2) := by
  have h := c3_default_mode_ttl (fun n => strBytes ("payload-" ++ toString (n + 1)))
    ⟨[], ⟨"responses", [], []⟩, 0, 0⟩ "r1" "r2" "r3" "r4"
    ⟨"http", .get, "x", none, some "D", none⟩ (some "D") 1 0 1 5 2
    rfl (by omega) (by omega)
  exact ⟨rfl, by omega, by omega, h.2.1, h.2.2.2.1, h.2.2.2.2.2.2.1⟩

/-- C4: Payload Store write is idempotent and content-addressed: for
every byte payload (against any store holding no other blob under that
payload's checksum), writing the same bytes twice returns the same
location without duplicating storage (the store state after the second
write is unchanged), and read(checksum) after write(bytes) returns
exactly the original bytes. -/
theorem c4_payload_write_idempotent_roundtrip (ps : PayloadStore)
    (data : Bytes) :
    ((ps.write_payload data).2.write_payload data).1 = (ps.write_payload data).1
    ∧ ((ps.write_payload data).2.write_payload data).2 = (ps.write_payload data).2
    ∧ ((∀ b, ps.lookup (sha256hex data) = some b → b = data) →
      (ps.write_payload data).2.read_payload (sha256hex data) = .ok data) := by
  cases hf : ps.files.find? (fun p => p.1 == sha256hex data) with
  | none =>
    have hw : ps.write_payload data =
        (payloadPath ps.responsesDir (sha256hex data),
         { ps with files := (sha256hex data, data) :: ps.files }) := by
      simp [PayloadStore.write_payload, hf]
    have hf2 : ((sha256hex data, data) :: ps.files).find?
        (fun p => p.1 == sha256hex data) = some (sha256hex data, data) :=
      List.find?_cons_of_pos _ (by simp)
    rw [hw]
    refine ⟨?_, ?_, ?_⟩
    · simp [PayloadStore.write_payload, hf2]
    · simp [PayloadStore.write_payload, hf2]
    · intro _
      simp [PayloadStore.read_payload, hf2]
  | some p =>
    have hw : ps.write_payload data =
        (payloadPath ps.responsesDir (sha256hex data), ps) := by
      simp [PayloadStore.write_payload, hf]
    rw [hw]
    refine ⟨?_, ?_, ?_⟩
    · simp [PayloadStore.write_payload, hf]
    · simp [PayloadStore.write_payload, hf]
    · intro hnc
      have hp2 : p.2 = data := hnc p.2 (by simp [PayloadStore.lookup, hf])
      simp [PayloadStore.read_payload, hf, hp2]

/-- Witness for C4, mirroring `test_payload_roundtrip`: on an empty
store, writing "hello world" twice leaves the store unchanged at the
same location, and reading the checksum back yields the bytes. -/
theorem c4_payload_write_idempotent_roundtrip_witness :
    (∀ b, PayloadStore.lookup ⟨"responses", [], []⟩
        (sha256hex (strBytes "hello world")) = some b →
        b = strBytes "hello world")
    ∧ (((PayloadStore.write_payload ⟨"responses", [], []⟩
          (strBytes "hello world")).2.write_payload
          (strBytes "hello world")).2 =
        (PayloadStore.write_payload ⟨"responses", [], []⟩
          (strBytes "hello world")).2
      ∧ (PayloadStore.write_payload ⟨"responses", [], []⟩
          (strBytes "hello world")).2.read_payload
          (sha256hex (strBytes "hello world")) =
        .ok (strBytes "hello world")) := by
  have hnc : ∀ b, PayloadStore.lookup ⟨"responses", [], []⟩
      (sha256hex (strBytes "hello world")) = some b →
      b = strBytes "hello world" := by
    intro b hb
    simp [PayloadStore.lookup, List.find?] at hb
  have h := c4_payload_write_idempotent_roundtrip ⟨"responses", [], []⟩
    (strBytes "hello world")
  exact ⟨hnc, h.2.1, h.2.2 hnc⟩

/-- C5: Payload Store read(checksum) fails with a checksum-mismatch
(corruption) error whenever the stored bytes do not hash to the
requested checksum, fails with a not-found error whenever no file
exists for the checksum, and never returns bytes whose hash is not the
requested checksum. -/
theorem c5_read_payload_never_wrong (ps : PayloadStore) (c : String) :
    (ps.lookup c = none → ps.read_payload c = .error .notFound)
    ∧ (∀ b, ps.lookup c = some b → sha256hex b ≠ c →
        ps.read_payload c = .error .checksumMismatch)
    ∧ (∀ b, ps.read_payload c = .ok b → sha256hex b = c) := by
  cases hf : ps.files.find? (fun p => p.1 == c) with
  | none =>
    refine ⟨fun _ => by simp [PayloadStore.read_payload, hf], ?_, ?_⟩
    · intro b hb
      simp [PayloadStore.lookup, hf] at hb
    · intro b hb
      simp [PayloadStore.read_payload, hf] at hb
  | some p =>
    refine ⟨?_, ?_, ?_⟩
    · intro h
      simp [PayloadStore.lookup, hf] at h
    · intro b hb hne
      have hpb : p.2 = b := by
        simpa [PayloadStore.lookup, hf] using hb
      simp [PayloadStore.read_payload, hf, hpb, hne]
    · intro b hb
      simp only [PayloadStore.read_payload, hf] at hb
      by_cases hc : sha256hex p.2 = c
      · rw [if_pos (by simp [hc])] at hb
        cases hb
        exact hc
      · rw [if_neg (by simp [hc])] at hb
        cases hb

/-- Witness for C5, mirroring `test_payload_checksum_mismatch` and
`test_missing_payload_raises`: a store whose file for the checksum of
"original" holds the tampered bytes fails the read with a
checksum-mismatch error, and an empty store fails with not-found. -/
theorem c5_read_payload_never_wrong_witness :
    PayloadStore.read_payload
        ⟨"responses", [(sha256hex (strBytes "original"), strBytes "tampered")], []⟩
        (sha256hex (strBytes "original")) = .error .checksumMismatch
    ∧ PayloadStore.read_payload ⟨"responses", [], []⟩
        (sha256hex (strBytes "original")) = .error .notFound := by
  constructor
  · exact (c5_read_payload_never_wrong
      ⟨"responses", [(sha256hex (strBytes "original"), strBytes "tampered")], []⟩
      (sha256hex (strBytes "original"))).2.1 (strBytes "tampered")
      (by simp [PayloadStore.lookup, List.find?]) (by decide)
  · exact (c5_read_payload_never_wrong ⟨"responses", [], []⟩
      (sha256hex (strBytes "original"))).1 rfl

/-- C6: Under cache mode ONLY_IF_CACHED, for every request: if a cached
response exists for the request's hash and bucket it is returned — for
every ttl and clock value, so in particular even when its TTL has
expired — with the system state (and hence the adapter call count)
unchanged; if no cached response exists, fetch fails with a cache-miss
error, again leaving the state unchanged (zero adapter calls, never any
adapter I/O). -/
theorem c6_only_if_cached (adapter : Nat → Bytes) (ttl : Option Int)
    (st : SysState) (rid : String) (fp : Fingerprint)
    (bucket : Option String) (now : Int) :
    (∀ row, lookupCached st fp bucket = some row →
      applyFetch adapter .onlyIfCached ttl st rid fp bucket now =
        (.ok row.resp, st))
    ∧ (lookupCached st fp bucket = none →
      applyFetch adapter .onlyIfCached ttl st rid fp bucket now =
        (.error .cacheMiss, st))
    ∧ (applyFetch adapter .onlyIfCached ttl st rid fp bucket now).2.calls =
        st.calls := by
  refine ⟨?_, ?_, ?_⟩
  · intro row hrow
    simp [applyFetch, hrow]
  · intro hnone
    simp [applyFetch, hnone]
  · cases hl : lookupCached st fp bucket <;> simp [applyFetch, hl]

/-- Witness for C6, mirroring `test_only_if_cached_hits_or_raises`: a
state caching one response under bucket "B" serves it with expired ttl
(ttl 0 at a much later clock) without touching the state; the same
lookup under bucket "C" misses and errors. -/
theorem c6_only_if_cached_witness :
    lookupCached
        ⟨[⟨⟨7, "r0", .ok, some "c", "p", 3, 0⟩,
            ⟨"http", .get, "x", none, some "B", none⟩, some "B"⟩],
          ⟨"responses", [], []⟩, 1, 8⟩
        ⟨"http", .get, "x", none, some "B", none⟩ (some "B") =
      some ⟨⟨7, "r0", .ok, some "c", "p", 3, 0⟩,
        ⟨"http", .get, "x", none, some "B", none⟩, some "B"⟩
    ∧ applyFetch (fun _ => []) .onlyIfCached (some 0)
        ⟨[⟨⟨7, "r0", .ok, some "c", "p", 3, 0⟩,
            ⟨"http", .get, "x", none, some "B", none⟩, some "B"⟩],
          ⟨"responses", [], []⟩, 1, 8⟩ "r1"
        ⟨"http", .get, "x", none, some "B", none⟩ (some "B") 1000 =
      (.ok ⟨7, "r0", .ok, some "c", "p", 3, 0⟩,
        ⟨[⟨⟨7, "r0", .ok, some "c", "p", 3, 0⟩,
            ⟨"http", .get, "x", none, some "B", none⟩, some "B"⟩],
          ⟨"responses", [], []⟩, 1, 8⟩)
    ∧ applyFetch (fun _ => []) .onlyIfCached none
        ⟨[⟨⟨7, "r0", .ok, some "c", "p", 3, 0⟩,
            ⟨"http", .get, "x", none, some "B", none⟩, some "B"⟩],
          ⟨"responses", [], []⟩, 1, 8⟩ "r2"
        ⟨"http", .get, "x", none, some "B", none⟩ (some "C") 1000 =
      (.error .cacheMiss,
        ⟨[⟨⟨7, "r0", .ok, some "c", "p", 3, 0⟩,
            ⟨"http", .get, "x", none, some "B", none⟩, some "B"⟩],
          ⟨"responses", [], []⟩, 1, 8⟩) := by
  refine ⟨by decide, ?_, ?_⟩
  · exact (c6_only_if_cached (fun _ => []) (some 0)
      ⟨[⟨⟨7, "r0", .ok, some "c", "p", 3, 0⟩,
          ⟨"http", .get, "x", none, some "B", none⟩, some "B"⟩],
        ⟨"responses", [], []⟩, 1, 8⟩ "r1"
      ⟨"http", .get, "x", none, some "B", none⟩ (some "B") 1000).1
      ⟨⟨7, "r0", .ok, some "c", "p", 3, 0⟩,
        ⟨"http", .get, "x", none, some "B", none⟩, some "B"⟩ (by decide)
  · exact (c6_only_if_cached (fun _ => []) none
      ⟨[⟨⟨7, "r0", .ok, some "c", "p", 3, 0⟩,
          ⟨"http", .get, "x", none, some "B", none⟩, some "B"⟩],
        ⟨"responses", [], []⟩, 1, 8⟩ "r2"
      ⟨"http", .get, "x", none, some "B", none⟩ (some "C") 1000).2.1 (by decide)

/-- C7: Under cache mode NEVER, every fetch invokes the adapter but
persists nothing to the Metadata Store or Payload Store: the returned
Response carries the ephemeral path sentinel and a null checksum, the
response rows and the payload store are unchanged while the adapter
call count increments, and no later session can observe it — if no
cached response existed for the hash and bucket, a subsequent
DEFAULT-mode fetch with the identical hash still triggers a fresh
adapter call. -/
theorem c7_never_mode (adapter : Nat → Bytes) (ttl ttl2 : Option Int)
    (st : SysState) (rid rid2 : String) (fp : Fingerprint)
    (bucket : Option String) (now now2 : Int) :
    (∃ r, (applyFetch adapter .never ttl st rid fp bucket now).1 = .ok r ∧
      r.path = ephemeralPath ∧ r.checksum = none)
    ∧ (applyFetch adapter .never ttl st rid fp bucket now).2.rows = st.rows
    ∧ (applyFetch adapter .never ttl st rid fp bucket now).2.payload = st.payload
    ∧ (applyFetch adapter .never ttl st rid fp bucket now).2.calls = st.calls + 1
    ∧ (lookupCached st fp bucket = none →
      (applyFetch adapter .default ttl2
          (applyFetch adapter .never ttl st rid fp bucket now).2
          rid2 fp bucket now2).2.calls =
        (applyFetch adapter .never ttl st rid fp bucket now).2.calls + 1) := by
  refine ⟨⟨_, rfl, rfl, rfl⟩, rfl, rfl, rfl, ?_⟩
  intro hnone
  have hnone' : st.rows.find? (fun r => r.hash == fp && r.bucket == bucket) =
      none := hnone
  simp [applyFetch, defaultFlow, lookupCached, freshFetch, hnone']

/-- Witness for C7, mirroring `test_never_mode_is_ephemeral`: from the
empty state a NEVER fetch returns the ephemeral sentinel with null
checksum, persists nothing, and the follow-up DEFAULT fetch calls the
adapter again. -/
theorem c7_never_mode_witness :
    lookupCached ⟨[], ⟨"responses", [], []⟩, 0, 0⟩
      ⟨"http", .get, "x", none, some "E", none⟩ (some "E") = none
    ∧ ((∃ r, (applyFetch (fun n => strBytes ("payload-" ++ toString (n + 1)))
          .never none ⟨[], ⟨"responses", [], []⟩, 0, 0⟩ "r1"
          ⟨"http", .get, "x", none, some "E", none⟩ (some "E") 0).1 = .ok r ∧
        r.path = ephemeralPath ∧ r.checksum = none)
      ∧ (applyFetch (fun n => strBytes ("payload-" ++ toString (n + 1)))
          .never none ⟨[], ⟨"responses", [], []⟩, 0, 0⟩ "r1"
          ⟨"http", .get, "x", none, some "E", none⟩ (some "E") 0).2.rows = []
      ∧ (applyFetch (fun n => strBytes ("payload-" ++ toString (n + 1)))
          .default none
          (applyFetch (fun n => strBytes ("payload-" ++ toString (n + 1)))
            .never none ⟨[], ⟨"responses", [], []⟩, 0, 0⟩ "r1"
            ⟨"http", .get, "x", none, some "E", none⟩ (some "E") 0).2
          "r2" ⟨"http", .get, "x", none, some "E", none⟩ (some "E") 1).2.calls =
        (applyFetch (fun n => strBytes ("payload-" ++ toString (n + 1)))
          .never none ⟨[], ⟨"responses", [], []⟩, 0, 0⟩ "r1"
          ⟨"http", .get, "x", none, some "E", none⟩ (some "E") 0).2.calls + 1) := by
  have h := c7_never_mode (fun n => strBytes ("payload-" ++ toString (n + 1)))
    none none ⟨[], ⟨"responses", [], []⟩, 0, 0⟩ "r1" "r2"
    ⟨"http", .get, "x", none, some "E", none⟩ (some "E") 0 1
  exact ⟨rfl, h.1, h.2.1, h.2.2.2.2 rfl⟩

/-- C9: Cache mode REVALIDATE behaves identically to DEFAULT for every
request: for every adapter, ttl, state, request id, hash, bucket and
clock a REVALIDATE fetch returns the same result and the same state —
the same lookup, TTL check, adapter-call and persistence behavior — as
a DEFAULT fetch (no upstream revalidation handshake exists in the
policy machine). -/
theorem c9_revalidate_equals_default (adapter : Nat → Bytes)
    (ttl : Option Int) (st : SysState) (rid : String) (fp : Fingerprint)
    (bucket : Option String) (now : Int) :
    applyFetch adapter .revalidate ttl st rid fp bucket now =
      applyFetch adapter .default ttl st rid fp bucket now := rfl

/-- A repeated `get_instance` call is a fixpoint: the same instance
comes back and the registry is untouched (no duplicate
initialization). -/
theorem get_instance_stable (reg : InstanceRegistry) (cfg : StoreCfg) :
    get_instance (get_instance reg cfg).2 cfg = get_instance reg cfg := by
  cases hf : reg.entries.find? (fun p => p.1 == resolveKey cfg) with
  | some p => simp [get_instance, hf]
  | none => simp [get_instance, hf, List.find?_cons_of_pos]

/-- A trace of calls from a fixpoint registry returns the same instance
every time and never changes the registry. -/
theorem runAll_fixed (reg : InstanceRegistry) (cfg : StoreCfg) (i : Nat)
    (hfix : get_instance reg cfg = (i, reg)) (n : Nat) :
    runAll reg (List.replicate n cfg) = (List.replicate n i, reg) := by
  induction n with
  | zero => rfl
  | succ n ih => simp [runAll, List.replicate_succ, hfix, ih]

/-- C8: Store.get_instance(config) returns exactly one store instance
per resolved physical storage location: calling again with a config
resolving to the same database path returns the identical instance with
no re-initialization (registry unchanged); a config resolving to a
different database path yields a distinct instance; and N serialized
first-time constructions against the same location — the
mutual-exclusion guard serializes concurrent threads — all converge on
the single shared instance. -/
theorem c8_get_instance_singleton (reg : InstanceRegistry)
    (cfg cfg2 : StoreCfg) (hwf : RegistryWF reg) :
    get_instance (get_instance reg cfg).2 cfg = get_instance reg cfg
    ∧ (resolveKey cfg ≠ resolveKey cfg2 →
      (get_instance (get_instance reg cfg).2 cfg2).1 ≠
        (get_instance reg cfg).1)
    ∧ (∀ n, (runAll reg (List.replicate n cfg)).1 =
        List.replicate n (get_instance reg cfg).1) := by
  refine ⟨get_instance_stable reg cfg, ?_, ?_⟩
  · intro hk
    cases hf1 : reg.entries.find? (fun p => p.1 == resolveKey cfg) with
    | some p =>
      have hmem := List.mem_of_find?_eq_some hf1
      have hp1 : p.1 = resolveKey cfg := by
        have := List.find?_some hf1
        simpa using this
      cases hf2 : reg.entries.find? (fun q => q.1 == resolveKey cfg2) with
      | some q =>
        have hqmem := List.mem_of_find?_eq_some hf2
        have hq1 : q.1 = resolveKey cfg2 := by
          have := List.find?_some hf2
          simpa using this
        have hne : p ≠ q := fun he => hk (by rw [← hp1, he, hq1])
        have hv : q.2 ≠ p.2 := fun he =>
          hne (List.inj_on_of_nodup_map hwf.2 hmem hqmem he.symm)
        simpa [get_instance, hf1, hf2] using hv
      | none =>
        have hlt : p.2 < reg.nextId := hwf.1 p hmem
        simp only [get_instance, hf1, hf2]
        omega
    | none =>
      have hcons : (((resolveKey cfg, reg.nextId) :: reg.entries).find?
            (fun q => q.1 == resolveKey cfg2)) =
          reg.entries.find? (fun q => q.1 == resolveKey cfg2) :=
        List.find?_cons_of_neg _ (by simpa using hk)
      cases hf2 : reg.entries.find? (fun q => q.1 == resolveKey cfg2) with
      | some q =>
        have hqmem := List.mem_of_find?_eq_some hf2
        have hlt : q.2 < reg.nextId := hwf.1 q hqmem
        simp only [get_instance, hf1, hcons, hf2]
        omega
      | none =>
        simp only [get_instance, hf1, hcons, hf2]
        omega
  · intro n
    cases n with
    | zero => rfl
    | succ m =>
      have hfix : get_instance (get_instance reg cfg).2 cfg =
          ((get_instance reg cfg).1, (get_instance reg cfg).2) := by
        rw [get_instance_stable reg cfg]
      have hrest := runAll_fixed (get_instance reg cfg).2 cfg
        (get_instance reg cfg).1 hfix m
      simp [runAll, List.replicate_succ, hrest]

/-- Witness for C8, mirroring `test_get_instance_singleton` and
`test_singleton_thread_safety`: on the empty registry, two calls for
the same database path agree, a different path gives a different
instance, and five serialized calls all return the first instance. -/
theorem c8_get_instance_singleton_witness :
    RegistryWF ⟨[], 0⟩
    ∧ resolveKey ⟨"/tmp/test.sqlite", "/tmp/responses"⟩ ≠
        resolveKey ⟨"/tmp/other.sqlite", "/tmp/responses"⟩
    ∧ (get_instance (get_instance ⟨[], 0⟩
          ⟨"/tmp/test.sqlite", "/tmp/responses"⟩).2
          ⟨"/tmp/test.sqlite", "/tmp/responses"⟩ =
        get_instance ⟨[], 0⟩ ⟨"/tmp/test.sqlite", "/tmp/responses"⟩)
    ∧ ((get_instance (get_instance ⟨[], 0⟩
          ⟨"/tmp/test.sqlite", "/tmp/responses"⟩).2
          ⟨"/tmp/other.sqlite", "/tmp/responses"⟩).1 ≠
        (get_instance ⟨[], 0⟩ ⟨"/tmp/test.sqlite", "/tmp/responses"⟩).1)
    ∧ (runAll ⟨[], 0⟩ (List.replicate 5
          ⟨"/tmp/test.sqlite", "/tmp/responses"⟩)).1 =
        List.replicate 5
          (get_instance ⟨[], 0⟩ ⟨"/tmp/test.sqlite", "/tmp/responses"⟩).1 := by
  have h := c8_get_instance_singleton ⟨[], 0⟩
    ⟨"/tmp/test.sqlite", "/tmp/responses"⟩
    ⟨"/tmp/other.sqlite", "/tmp/responses"⟩ (by constructor <;> simp)
  exact ⟨by constructor <;> simp, by decide, h.1, h.2.1 (by decide), h.2.2 5⟩

/-- C10: For every byte payload, the payload checksum is the lowercase
hexadecimal SHA-256 digest of exactly those bytes: Response.from_bytes
sets checksum = sha256(data) and size_bytes = len(data), write_payload
returns a path whose filename stem equals that checksum (so the
checksum is recoverable from the location), the metadata sidecar for a
checksum is named <checksum>.meta.json in the responses directory, and
the digest function is SHA-256 itself (witnessed on "hello world" by
the standard test vector). -/
theorem c10_checksum_is_sha256 (id : Nat) (reqId : String)
    (status : ResponseStatus) (data : Bytes) (path : String) (now : Int)
    (ps : PayloadStore) (c : String) (meta : JsonFields) :
    (Response.from_bytes id reqId status data path now).checksum =
      some (sha256hex data)
    ∧ (Response.from_bytes id reqId status data path now).sizeBytes =
      data.length
    ∧ (ps.write_payload data).1.stem = sha256hex data
    ∧ (ps.write_payload data).1.dir = ps.responsesDir
    ∧ (ps.write_metadata c meta).1.fileName = c ++ ".meta.json"
    ∧ (ps.write_metadata c meta).1.dir = ps.responsesDir
    ∧ sha256hex (strBytes "hello world") =
      "b94d27b9934d3e08a52e52d7da7dabfac484efe37a5380ee9088f7ace2efcde9" := by
  refine ⟨rfl, rfl, ?_, ?_, ?_, ?_, by decide⟩
  · cases hf : ps.files.find? (fun p => p.1 == sha256hex data) with
    | some p => simp [PayloadStore.write_payload, hf, payloadPath]
    | none => simp [PayloadStore.write_payload, hf, payloadPath]
  · cases hf : ps.files.find? (fun p => p.1 == sha256hex data) with
    | some p => simp [PayloadStore.write_payload, hf, payloadPath]
    | none => simp [PayloadStore.write_payload, hf, payloadPath]
  · cases hf : ps.sidecars.find? (fun p => p.1 == c) with
    | some p =>
      simp [PayloadStore.write_metadata, hf, metaPath, StorePath.fileName,
        String.append_assoc]
    | none =>
      simp [PayloadStore.write_metadata, hf, metaPath, StorePath.fileName,
        String.append_assoc]
  · cases hf : ps.sidecars.find? (fun p => p.1 == c) with
    | some p => simp [PayloadStore.write_metadata, hf, metaPath]
    | none => simp [PayloadStore.write_metadata, hf, metaPath]

end MxmDataio
